import Mathlib

/-!
A shallow embedding of the `Uri::Uri` class (src/Uri.cpp, an RFC 3986
generic-URI parser, normalizer, resolver and serializer) together with
proofs about the embedded operations.

Strings (`std::string`) are modelled as `List Char`; the character-set
collaborator (`Uri::CharacterSet`) is modelled as a `Char → Bool`
predicate per named set, with the set contents taken from the constant
definitions at the top of Uri.cpp.
-/

namespace UriModel

/-- A C++ `std::string`, modelled as a list of characters. -/
abbrev Str := List Char

/-- Convenience conversion from Lean string literals. -/
def str (s : String) : Str := s.data

/-- The `ALPHA` character set from Uri.cpp: ranges a-z and A-Z. -/
def ALPHA (c : Char) : Bool :=
  ('a' ≤ c && c ≤ 'z') || ('A' ≤ c && c ≤ 'Z')

/-- The `DIGIT` character set from Uri.cpp: range 0-9. -/
def DIGIT (c : Char) : Bool :=
  '0' ≤ c && c ≤ '9'

/-- The `HEXDIG` character set from Uri.cpp: 0-9, A-F, a-f. -/
def HEXDIG (c : Char) : Bool :=
  ('0' ≤ c && c ≤ '9') || ('A' ≤ c && c ≤ 'F') || ('a' ≤ c && c ≤ 'f')

/-- The `UNRESERVED` character set from Uri.cpp. -/
def UNRESERVED (c : Char) : Bool :=
  ALPHA c || DIGIT c || c == '-' || c == '.' || c == '_' || c == '~'

/-- The `SUB_DELIMS` character set from Uri.cpp. -/
def SUB_DELIMS (c : Char) : Bool :=
  c == '!' || c == '$' || c == '&' || c == '\'' || c == '(' || c == ')' ||
  c == '*' || c == '+' || c == ',' || c == ';' || c == '='

/-- The `SCHEME_NOT_FIRST` character set from Uri.cpp. -/
def SCHEME_NOT_FIRST (c : Char) : Bool :=
  ALPHA c || DIGIT c || c == '+' || c == '-' || c == '.'

/-- The `PCHAR_NOT_PCT_ENCODED` character set from Uri.cpp. -/
def PCHAR_NOT_PCT_ENCODED (c : Char) : Bool :=
  UNRESERVED c || SUB_DELIMS c || c == ':' || c == '@'

/-- The `QUERY_OR_FRAGMENT_NOT_PCT_ENCODED` character set from Uri.cpp. -/
def QUERY_OR_FRAGMENT_NOT_PCT_ENCODED (c : Char) : Bool :=
  PCHAR_NOT_PCT_ENCODED c || c == '/' || c == '?'

/-- The `QUERY_NOT_PCT_ENCODED_WITHOUT_PLUS` character set from Uri.cpp
(query characters, with `+` deliberately excluded). -/
def QUERY_NOT_PCT_ENCODED_WITHOUT_PLUS (c : Char) : Bool :=
  UNRESERVED c ||
  c == '!' || c == '$' || c == '&' || c == '\'' || c == '(' || c == ')' ||
  c == '*' || c == ',' || c == ';' || c == '=' ||
  c == ':' || c == '@' || c == '/' || c == '?'

/-- The `USER_INFO_NOT_PCT_ENCODED` character set from Uri.cpp. -/
def USER_INFO_NOT_PCT_ENCODED (c : Char) : Bool :=
  UNRESERVED c || SUB_DELIMS c || c == ':'

/-- The `REG_NAME_NOT_PCT_ENCODED` character set from Uri.cpp. -/
def REG_NAME_NOT_PCT_ENCODED (c : Char) : Bool :=
  UNRESERVED c || SUB_DELIMS c

/-- The `IPV_FUTURE_LAST_PART` character set from Uri.cpp. -/
def IPV_FUTURE_LAST_PART (c : Char) : Bool :=
  UNRESERVED c || SUB_DELIMS c || c == ':'

/-- Modelled from the spec: the external percent-encoded-character decoder
collaborator (PercentEncodedCharacterDecoder.hpp, not under src/) accepts a
hexadecimal digit character and yields its numeric value, failing on a
non-hex character. -/
def hexDigitValue (c : Char) : Option Nat :=
  if '0' ≤ c && c ≤ '9' then some (c.toNat - '0'.toNat)
  else if 'A' ≤ c && c ≤ 'F' then some (c.toNat - 'A'.toNat + 10)
  else if 'a' ≤ c && c ≤ 'f' then some (c.toNat - 'a'.toNat + 10)
  else none

/-- `std::tolower` on an unsigned char in the default C locale,
as used by Uri.cpp to lowercase schemes and reg-name hosts. -/
def toLowerChar (c : Char) : Char :=
  if 'A' ≤ c && c ≤ 'Z' then Char.ofNat (c.toNat + 32) else c

/-- State of the percent-escape decoding inside `DecodeElement`:
either scanning ordinary characters, or inside a percent escape
waiting for the first or the second hex digit. -/
inductive DecState where
  | normal
  | awaitFirst
  | awaitSecond (hi : Nat)
deriving DecidableEq

/-- The scanning loop of `DecodeElement` (Uri.cpp:461-490).  As in the
source, reaching the end of the input inside an incomplete percent escape
still returns the accumulated output. -/
def decodeElementGo (allowed : Char → Bool) : Str → DecState → Str → Option Str
  | [], _, acc => some acc
  | c :: rest, DecState.normal, acc =>
    if c == '%' then decodeElementGo allowed rest DecState.awaitFirst acc
    else if allowed c then decodeElementGo allowed rest DecState.normal (acc ++ [c])
    else none
  | c :: rest, DecState.awaitFirst, acc =>
    match hexDigitValue c with
    | none => none
    | some hi => decodeElementGo allowed rest (DecState.awaitSecond hi) acc
  | c :: rest, DecState.awaitSecond hi, acc =>
    match hexDigitValue c with
    | none => none
    | some lo =>
      decodeElementGo allowed rest DecState.normal (acc ++ [Char.ofNat (16 * hi + lo)])

/-- `DecodeElement` (Uri.cpp:461-490): percent-decode an element, requiring
every literal character to belong to the allowed character set. -/
def DecodeElement (element : Str) (allowed : Char → Bool) : Option Str :=
  decodeElementGo allowed element DecState.normal []

/-- `MakeHexDigit` (Uri.cpp:502-508). -/
def MakeHexDigit (value : Nat) : Char :=
  if value < 10 then Char.ofNat (value + '0'.toNat)
  else Char.ofNat (value - 10 + 'A'.toNat)

/-- The per-character action of `EncodeElement`: a character in the allowed
set passes through, any other byte becomes a percent escape with the high
nibble first. -/
def encodeChar (allowed : Char → Bool) (c : Char) : Str :=
  if allowed c then [c]
  else ['%', MakeHexDigit (c.toNat / 16), MakeHexDigit (c.toNat % 16)]

/-- `EncodeElement` (Uri.cpp:527-542): percent-encode every byte outside
the allowed character set.  Total. -/
def EncodeElement (element : Str) (allowed : Char → Bool) : Str :=
  match element with
  | [] => []
  | c :: rest => encodeChar allowed c ++ EncodeElement rest allowed

/-- `DecodeQueryOrFragment` (Uri.cpp:555-560). -/
def DecodeQueryOrFragment (queryOrFragment : Str) : Option Str :=
  DecodeElement queryOrFragment QUERY_OR_FRAGMENT_NOT_PCT_ENCODED

/-- The digit-accumulating loop of `ValidateOctet` (Uri.cpp:159-170). -/
def validateOctetLoop : Str → Nat → Option Nat
  | [], octet => some octet
  | c :: rest, octet =>
    if DIGIT c then validateOctetLoop rest (octet * 10 + (c.toNat - '0'.toNat))
    else none

/-- `ValidateOctet` (Uri.cpp:159-170). -/
def ValidateOctet (octetString : Str) : Bool :=
  match validateOctetLoop octetString 0 with
  | none => false
  | some octet => octet ≤ 255

/-- The two scanning states of `ValidateIpv4Address` (Uri.cpp:184-224):
state 0 "not in an octet yet" and state 1 "expect a digit or dot". -/
inductive V4State where
  | notInOctet
  | expectDigitOrDot
deriving DecidableEq

/-- The scanning loop of `ValidateIpv4Address`, returning the final group
count and octet buffer, or `none` on early rejection. -/
def validateIpv4Loop : Str → V4State → Nat → Str → Option (Nat × Str)
  | [], _, numGroups, octetBuffer => some (numGroups, octetBuffer)
  | c :: rest, V4State.notInOctet, numGroups, octetBuffer =>
    if DIGIT c then
      validateIpv4Loop rest V4State.expectDigitOrDot numGroups (octetBuffer ++ [c])
    else none
  | c :: rest, V4State.expectDigitOrDot, numGroups, octetBuffer =>
    if c == '.' then
      if numGroups ≥ 4 then none
      else if ValidateOctet octetBuffer then
        validateIpv4Loop rest V4State.notInOctet (numGroups + 1) []
      else none
    else if DIGIT c then
      validateIpv4Loop rest V4State.expectDigitOrDot numGroups (octetBuffer ++ [c])
    else none

/-- `ValidateIpv4Address` (Uri.cpp:184-224). -/
def ValidateIpv4Address (address : Str) : Bool :=
  match validateIpv4Loop address V4State.notInOctet 0 [] with
  | none => false
  | some (numGroups, octetBuffer) =>
    if octetBuffer ≠ [] then
      if ValidateOctet octetBuffer then numGroups + 1 == 4 else false
    else numGroups == 4

/-- The six validation states of `ValidateIpv6Address` (Uri.cpp:239-246). -/
inductive V6State where
  | noGroupsYet
  | colonButNoGroupsYet
  | afterDoubleColon
  | inGroupNotIpv4
  | inGroupCouldBeIpv4
  | colonAfterGroup
deriving DecidableEq

/-- The mutable registers of the `ValidateIpv6Address` scanning loop
(Uri.cpp:247-252). -/
structure V6Scan where
  state : V6State
  numGroups : Nat
  numDigits : Nat
  doubleColonEncountered : Bool
  potentialIpv4AddressStart : Nat
  position : Nat
  ipv4AddressEncountered : Bool
deriving DecidableEq

/-- One iteration of the `switch` statement inside the scanning loop of
`ValidateIpv6Address` (Uri.cpp:253-351); `none` is the early
`return false`. -/
def v6Switch (c : Char) (s : V6Scan) : Option V6Scan :=
  match s.state with
  | V6State.noGroupsYet =>
    if c == ':' then some { s with state := V6State.colonButNoGroupsYet }
    else if DIGIT c then
      some { s with potentialIpv4AddressStart := s.position, numDigits := 1,
                    state := V6State.inGroupCouldBeIpv4 }
    else if HEXDIG c then
      some { s with numDigits := 1, state := V6State.inGroupNotIpv4 }
    else none
  | V6State.colonButNoGroupsYet =>
    if c == ':' then
      some { s with doubleColonEncountered := true, state := V6State.afterDoubleColon }
    else none
  | V6State.afterDoubleColon =>
    if DIGIT c then
      if s.numDigits + 1 > 4 then none
      else some { s with potentialIpv4AddressStart := s.position,
                         numDigits := s.numDigits + 1,
                         state := V6State.inGroupCouldBeIpv4 }
    else if HEXDIG c then
      if s.numDigits + 1 > 4 then none
      else some { s with numDigits := s.numDigits + 1, state := V6State.inGroupNotIpv4 }
    else none
  | V6State.inGroupNotIpv4 =>
    if c == ':' then
      some { s with numDigits := 0, numGroups := s.numGroups + 1,
                    state := V6State.colonAfterGroup }
    else if HEXDIG c then
      if s.numDigits + 1 > 4 then none
      else some { s with numDigits := s.numDigits + 1 }
    else none
  | V6State.inGroupCouldBeIpv4 =>
    if c == ':' then
      some { s with numDigits := 0, numGroups := s.numGroups + 1,
                    state := V6State.colonAfterGroup }
    else if c == '.' then some { s with ipv4AddressEncountered := true }
    else if DIGIT c then
      if s.numDigits + 1 > 4 then none
      else some { s with numDigits := s.numDigits + 1 }
    else if HEXDIG c then
      if s.numDigits + 1 > 4 then none
      else some { s with numDigits := s.numDigits + 1, state := V6State.inGroupNotIpv4 }
    else none
  | V6State.colonAfterGroup =>
    if c == ':' then
      if s.doubleColonEncountered then none
      else some { s with doubleColonEncountered := true, state := V6State.afterDoubleColon }
    else if DIGIT c then
      some { s with potentialIpv4AddressStart := s.position,
                    numDigits := s.numDigits + 1,
                    state := V6State.inGroupCouldBeIpv4 }
    else if HEXDIG c then
      some { s with numDigits := s.numDigits + 1, state := V6State.inGroupNotIpv4 }
    else none

/-- The scanning loop of `ValidateIpv6Address` (Uri.cpp:253-356): after each
switch iteration the loop breaks if an embedded IPv4 address was detected
(without incrementing the position), otherwise advances the position. -/
def v6Loop : Str → V6Scan → Option V6Scan
  | [], s => some s
  | c :: rest, s =>
    match v6Switch c s with
    | none => none
    | some s' =>
      if s'.ipv4AddressEncountered then some s'
      else v6Loop rest { s' with position := s'.position + 1 }

/-- The initial registers of the `ValidateIpv6Address` scan. -/
def v6Start : V6Scan :=
  { state := V6State.noGroupsYet, numGroups := 0, numDigits := 0,
    doubleColonEncountered := false, potentialIpv4AddressStart := 0,
    position := 0, ipv4AddressEncountered := false }

/-- `ValidateIpv6Address` (Uri.cpp:238-385): run the scan, then apply the
final acceptance checks (trailing group counting, lone-trailing-colon
rejection, embedded-IPv4 validation counting as two groups, and the
group-count comparison depending on double-colon compression). -/
def ValidateIpv6Address (address : Str) : Bool :=
  match v6Loop address v6Start with
  | none => false
  | some s =>
    let numGroups1 :=
      if s.state == V6State.inGroupNotIpv4 || s.state == V6State.inGroupCouldBeIpv4 then
        s.numGroups + 1
      else s.numGroups
    if s.position == address.length &&
       (s.state == V6State.colonButNoGroupsYet || s.state == V6State.colonAfterGroup) then
      false
    else if s.ipv4AddressEncountered &&
            !ValidateIpv4Address (address.drop s.potentialIpv4AddressStart) then
      false
    else
      let numGroups2 := if s.ipv4AddressEncountered then numGroups1 + 2 else numGroups1
      if s.doubleColonEncountered then decide (numGroups2 ≤ 7) else numGroups2 == 8

/-- Index of the first occurrence of a character satisfying `p`
(`std::string::find` / `find_first_of`). -/
def findIdxOf (p : Char → Bool) : Str → Option Nat
  | [] => none
  | c :: rest =>
    if p c then some 0
    else (findIdxOf p rest).map (· + 1)

/-- `std::string::find` with the `npos` result replaced by the string
length, the idiom used throughout Uri.cpp to delimit substrings. -/
def findIdxOrLen (p : Char → Bool) (l : Str) : Nat :=
  match findIdxOf p l with
  | none => l.length
  | some i => i

/-- The host-and-port parsing states of `ParseAuthority` (Uri.cpp:707-717).
The percent-encoded-character state carries the decoder's own state: the
first hex digit already consumed, if any. -/
inductive HostParsingState where
  | firstCharacter
  | notIpLiteral
  | percentEncodedCharacter (hi : Option Nat)
  | ipLiteral
  | ipv6Address
  | ipvFutureNumber
  | ipvFutureBody
  | garbageCheck
  | portState
deriving DecidableEq

/-- The registers threaded through the host/port scanning loop of
`ParseAuthority`: current state, accumulated host, accumulated port text,
and the reg-name flag. -/
structure AuthScan where
  state : HostParsingState
  host : Str
  portString : Str
  hostIsRegName : Bool
deriving DecidableEq

/-- Processing of one character in the `NOT_IP_LITERAL` state
(Uri.cpp:751-764); shared with the `FIRST_CHARACTER` fallthrough. -/
def authNotIpLiteralStep (c : Char) (s : AuthScan) : Option AuthScan :=
  if c == '%' then
    some { s with state := HostParsingState.percentEncodedCharacter none }
  else if c == ':' then
    some { s with state := HostParsingState.portState }
  else if REG_NAME_NOT_PCT_ENCODED c then
    some { s with host := s.host ++ [c] }
  else none

/-- Processing of one character in the `IPV6_ADDRESS` state
(Uri.cpp:786-795); shared with the `IP_LITERAL` fallthrough. -/
def authIpv6AddressStep (c : Char) (s : AuthScan) : Option AuthScan :=
  if c == ']' then
    if ValidateIpv6Address s.host then
      some { s with state := HostParsingState.garbageCheck }
    else none
  else some { s with host := s.host ++ [c] }

/-- One iteration of the host/port scanning loop of `ParseAuthority`
(Uri.cpp:739-830), including the `FIRST_CHARACTER → NOT_IP_LITERAL` and
`IP_LITERAL → IPV6_ADDRESS` fallthroughs of the C++ switch. -/
def authStep (c : Char) (s : AuthScan) : Option AuthScan :=
  match s.state with
  | HostParsingState.firstCharacter =>
    if c == '[' then some { s with state := HostParsingState.ipLiteral }
    else
      authNotIpLiteralStep c
        { s with state := HostParsingState.notIpLiteral, hostIsRegName := true }
  | HostParsingState.notIpLiteral => authNotIpLiteralStep c s
  | HostParsingState.percentEncodedCharacter none =>
    match hexDigitValue c with
    | none => none
    | some hi =>
      some { s with state := HostParsingState.percentEncodedCharacter (some hi) }
  | HostParsingState.percentEncodedCharacter (some hi) =>
    match hexDigitValue c with
    | none => none
    | some lo =>
      some { s with state := HostParsingState.notIpLiteral,
                    host := s.host ++ [Char.ofNat (16 * hi + lo)] }
  | HostParsingState.ipLiteral =>
    if c == 'v' then
      some { s with host := s.host ++ [c], state := HostParsingState.ipvFutureNumber }
    else authIpv6AddressStep c { s with state := HostParsingState.ipv6Address }
  | HostParsingState.ipv6Address => authIpv6AddressStep c s
  | HostParsingState.ipvFutureNumber =>
    if c == '.' then
      some { s with state := HostParsingState.ipvFutureBody, host := s.host ++ [c] }
    else if HEXDIG c then some { s with host := s.host ++ [c] }
    else none
  | HostParsingState.ipvFutureBody =>
    if c == ']' then some { s with state := HostParsingState.garbageCheck }
    else if IPV_FUTURE_LAST_PART c then some { s with host := s.host ++ [c] }
    else none
  | HostParsingState.garbageCheck =>
    if c == ':' then some { s with state := HostParsingState.portState }
    else none
  | HostParsingState.portState =>
    some { s with portString := s.portString ++ [c] }

/-- The host/port scanning loop of `ParseAuthority` over the whole
host-port string. -/
def authLoop : Str → AuthScan → Option AuthScan
  | [], s => some s
  | c :: rest, s =>
    match authStep c s with
    | none => none
    | some s' => authLoop rest s'

/-- Modelled after `std::stoi` as invoked on the port string
(Uri.cpp:846-851): skip leading whitespace, accept an optional sign, then
a non-empty run of decimal digits (trailing non-digits are ignored);
`none` models both `std::invalid_argument` (no digits) and
`std::out_of_range` (value does not fit in a 32-bit `int`). -/
def stoiModel (l : Str) : Option Int :=
  let l1 := l.dropWhile (fun c =>
    c == ' ' || c == '\t' || c == '\n' || c == Char.ofNat 11 || c == Char.ofNat 12 || c == '\r')
  let signAndRest : Bool × Str :=
    match l1 with
    | '-' :: r => (true, r)
    | '+' :: r => (false, r)
    | _ => (false, l1)
  match signAndRest with
  | (neg, l2) =>
    match l2 with
    | [] => none
    | c :: _ =>
      if DIGIT c then
        let v := (l2.takeWhile DIGIT).foldl (fun a d => a * 10 + (d.toNat - '0'.toNat)) 0
        if neg then
          if v ≤ 2147483648 then some (-(v : Int)) else none
        else
          if v ≤ 2147483647 then some (v : Int) else none
      else none

/-- The authority fields produced by `ParseAuthority`. -/
structure Authority where
  userInfo : Str
  host : Str
  hasPort : Bool
  port : Nat
deriving DecidableEq

/-- `ParseAuthority` (Uri.cpp:701-862): split off the user info at the
first `@`, run the host/port state machine, check the final state,
lowercase reg-name hosts, and parse and range-check the port text. -/
def ParseAuthority (authorityString : Str) : Option Authority :=
  let userInfoAndHostPort : Option Str × Str :=
    match findIdxOf (· == '@') authorityString with
    | none => (none, authorityString)
    | some i => (some (authorityString.take i), authorityString.drop (i + 1))
  match userInfoAndHostPort with
  | (rawUserInfo, hostPortString) =>
    let decodedUserInfo : Option Str :=
      match rawUserInfo with
      | none => some []
      | some raw => DecodeElement raw USER_INFO_NOT_PCT_ENCODED
    match decodedUserInfo with
    | none => none
    | some userInfo =>
      match authLoop hostPortString
          { state := HostParsingState.firstCharacter, host := [],
            portString := [], hostIsRegName := false } with
      | none => none
      | some s =>
        if s.state ≠ HostParsingState.firstCharacter ∧
           s.state ≠ HostParsingState.notIpLiteral ∧
           s.state ≠ HostParsingState.garbageCheck ∧
           s.state ≠ HostParsingState.portState then none
        else
          let host := if s.hostIsRegName then s.host.map toLowerChar else s.host
          if s.portString = [] then
            some { userInfo := userInfo, host := host, hasPort := false, port := 0 }
          else
            match stoiModel s.portString with
            | none => none
            | some portAsInt =>
              if portAsInt < 0 ∨ portAsInt > 65535 then none
              else
                some { userInfo := userInfo, host := host, hasPort := true,
                       port := portAsInt.toNat }

/-- The scheme legality check of Uri.cpp:402-440 (`FailsMatch` driven by
`LegalSchemeCheckStrategy`): the scheme must be non-empty, start with an
ALPHA character, and continue with `SCHEME_NOT_FIRST` characters. -/
def legalScheme : Str → Bool
  | [] => false
  | c :: rest => ALPHA c && rest.all SCHEME_NOT_FIRST

/-- `ParseScheme` (Uri.cpp:881-911): search for `:` only before the first
`/`; on success return the lowercased scheme (empty if absent) and the
remainder. -/
def ParseScheme (uriString : Str) : Option (Str × Str) :=
  let authorityOrPathDelimiterStart := findIdxOrLen (· == '/') uriString
  match findIdxOf (· == ':') (uriString.take authorityOrPathDelimiterStart) with
  | none => some ([], uriString)
  | some schemeEnd =>
    let scheme := uriString.take schemeEnd
    if legalScheme scheme then
      some (scheme.map toLowerChar, uriString.drop (schemeEnd + 1))
    else none

/-- The splitting loop of `ParsePath` (Uri.cpp:666-679): split on `/`,
preserving empty segments. -/
def splitOnSlashGo : Str → Str → List Str
  | [], current => [current]
  | c :: rest, current =>
    if c == '/' then current :: splitOnSlashGo rest []
    else splitOnSlashGo rest (current ++ [c])

/-- `ParsePath` (Uri.cpp:658-687): special-case `"/"` as the single empty
segment, split on `/`, then percent-decode each segment against the
`pchar` character set. -/
def ParsePath (pathString : Str) : Option (List Str) :=
  let segments : List Str :=
    if pathString = ['/'] then [[]]
    else if pathString = [] then []
    else splitOnSlashGo pathString []
  segments.mapM (fun segment => DecodeElement segment PCHAR_NOT_PCT_ENCODED)

/-- `ParseFragment` (Uri.cpp:1018-1033): split off and decode everything
after the first `#`; returns (hasFragment, fragment, rest). -/
def ParseFragment (queryAndOrFragment : Str) : Option (Bool × Str × Str) :=
  match findIdxOf (· == '#') queryAndOrFragment with
  | none =>
    (DecodeQueryOrFragment []).map (fun f => (false, f, queryAndOrFragment))
  | some i =>
    (DecodeQueryOrFragment (queryAndOrFragment.drop (i + 1))).map
      (fun f => (true, f, queryAndOrFragment.take i))

/-- `ParseQuery` (Uri.cpp:989-997): a non-empty remainder is the query with
its `?` delimiter still attached; returns (hasQuery, query). -/
def ParseQuery (queryWithDelimiter : Str) : Option (Bool × Str) :=
  if queryWithDelimiter = [] then
    (DecodeQueryOrFragment []).map (fun q => (false, q))
  else
    (DecodeQueryOrFragment (queryWithDelimiter.drop 1)).map (fun q => (true, q))

/-- The `Uri::Impl` value record (Uri.cpp:568-626): scheme, user info,
host, port presence and value, path segments, and query/fragment with
presence flags. -/
structure Uri where
  scheme : Str := []
  userInfo : Str := []
  host : Str := []
  hasPort : Bool := false
  port : Nat := 0
  path : List Str := []
  hasQuery : Bool := false
  query : Str := []
  hasFragment : Bool := false
  fragment : Str := []
deriving DecidableEq

/-- `Uri::Impl::HasAuthority` (Uri.cpp:639-645). -/
def HasAuthority (u : Uri) : Bool :=
  !u.host.isEmpty || !u.userInfo.isEmpty || u.hasPort

/-- `Uri::Impl::SetDefaultPathIfAuthorityPresentAndPathEmpty`
(Uri.cpp:967-974): if the host is non-empty and the path is empty, the
path becomes the single empty segment. -/
def SetDefaultPathIfAuthorityPresentAndPathEmpty (u : Uri) : Uri :=
  if u.host ≠ [] ∧ u.path = [] then { u with path := [[]] } else u

/-- `Uri::Impl::SplitAuthorityFromPathAndParseIt` (Uri.cpp:932-960):
if the string starts with `//`, split the authority at the next `/` and
parse it; otherwise the whole string is the path and the authority fields
are cleared. -/
def SplitAuthorityFromPathAndParseIt (authorityAndPathString : Str) :
    Option (Authority × Str) :=
  match authorityAndPathString with
  | '/' :: '/' :: afterMarker =>
    let authorityEnd := findIdxOrLen (· == '/') afterMarker
    let pathString := afterMarker.drop authorityEnd
    let authorityString := afterMarker.take authorityEnd
    (ParseAuthority authorityString).map (fun a => (a, pathString))
  | _ => some ({ userInfo := [], host := [], hasPort := false, port := 0 },
               authorityAndPathString)

/-- `Uri::ParseFromString` (Uri.cpp:1253-1273): scheme, then split the
query/fragment suffix at the first `?` or `#`, then authority and path,
the default-path rule, fragment, and finally the query. -/
def ParseFromString (uriString : Str) : Option Uri :=
  match ParseScheme uriString with
  | none => none
  | some (scheme, rest) =>
    let pathEnd := findIdxOrLen (fun c => c == '?' || c == '#') rest
    let authorityAndPathString := rest.take pathEnd
    let queryAndOrFragment := rest.drop pathEnd
    match SplitAuthorityFromPathAndParseIt authorityAndPathString with
    | none => none
    | some (auth, pathString) =>
      match ParsePath pathString with
      | none => none
      | some path =>
        let u1 : Uri :=
          { scheme := scheme, userInfo := auth.userInfo, host := auth.host,
            hasPort := auth.hasPort, port := auth.port, path := path }
        let u2 := SetDefaultPathIfAuthorityPresentAndPathEmpty u1
        match ParseFragment queryAndOrFragment with
        | none => none
        | some (hasFragment, fragment, rest2) =>
          match ParseQuery rest2 with
          | none => none
          | some (hasQuery, query) =>
            some { u2 with hasQuery := hasQuery, query := query,
                           hasFragment := hasFragment, fragment := fragment }

/-- `Uri::Impl::IsPathAbsolute` (Uri.cpp:1191-1196), on a path segment
sequence: non-empty with an empty first segment. -/
def IsPathAbsolute : List Str → Bool
  | [] => false
  | first :: _ => first == []

/-- `Uri::Impl::CanNavigatePathUpOneLevel` (Uri.cpp:1045-1050), on the
path being rebuilt: the path is not absolute, or has more than one
segment. -/
def CanNavigatePathUpOneLevel (path : List Str) : Bool :=
  !IsPathAbsolute path || decide (1 < path.length)

/-- One iteration of the segment-rebuilding loop of
`Uri::Impl::NormalizePath` (Uri.cpp:1065-1092): the accumulator is the
path rebuilt so far together with the `atDirectoryLevel` flag. -/
def normStep (acc : List Str × Bool) (segment : Str) : List Str × Bool :=
  match acc with
  | (path, atDirectoryLevel) =>
    if segment == ['.'] then (path, true)
    else if segment == ['.', '.'] then
      (if !path.isEmpty then
        (if CanNavigatePathUpOneLevel path then path.dropLast else path)
       else path, true)
    else
      ((if !atDirectoryLevel || !segment.isEmpty then path ++ [segment] else path),
       segment.isEmpty)

/-- `Uri::Impl::NormalizePath` (Uri.cpp:1058-1106): rebuild the path
applying `.` and `..`, then, if still at directory level with a non-empty
last segment, append a trailing empty segment. -/
def NormalizePath (oldPath : List Str) : List Str :=
  match oldPath.foldl normStep ([], false) with
  | (path, atDirectoryLevel) =>
    if atDirectoryLevel && (!path.isEmpty && !(path.getLastD []).isEmpty) then
      path ++ [[]]
    else path

/-- `Uri::operator==` (Uri.cpp:1219-1247): scheme, user info, host and
path compare directly; port, query and fragment compare presence flags
and, only when both present, values. -/
def uriEq (a b : Uri) : Bool :=
  a.scheme == b.scheme
  && a.userInfo == b.userInfo
  && a.host == b.host
  && ((!a.hasPort && !b.hasPort) || (a.hasPort && b.hasPort && a.port == b.port))
  && a.path == b.path
  && ((!a.hasQuery && !b.hasQuery) || (a.hasQuery && b.hasQuery && a.query == b.query))
  && ((!a.hasFragment && !b.hasFragment)
      || (a.hasFragment && b.hasFragment && a.fragment == b.fragment))

/-- `Uri::SetPort` (Uri.cpp:1391-1394); the argument is a `uint16_t`,
reduced modulo 2^16 at the call boundary. -/
def SetPort (u : Uri) (port : Nat) : Uri :=
  { u with port := port % 65536, hasPort := true }

/-- `Uri::ClearPort` (Uri.cpp:1396-1398): clears only the presence flag;
the stored port value is left behind. -/
def ClearPort (u : Uri) : Uri :=
  { u with hasPort := false }

/-- `Uri::Resolve` (Uri.cpp:1327-1377), the RFC 3986 §5.2.2 reference
resolution: `base` is `*this` and the target starts as a
default-constructed Uri whose fields are then copied per branch. -/
def Resolve (base relativeReference : Uri) : Uri :=
  let target : Uri :=
    if relativeReference.scheme ≠ [] then
      { scheme := relativeReference.scheme,
        host := relativeReference.host, userInfo := relativeReference.userInfo,
        hasPort := relativeReference.hasPort, port := relativeReference.port,
        path := NormalizePath relativeReference.path,
        hasQuery := relativeReference.hasQuery, query := relativeReference.query }
    else if relativeReference.host ≠ [] then
      { scheme := base.scheme,
        host := relativeReference.host, userInfo := relativeReference.userInfo,
        hasPort := relativeReference.hasPort, port := relativeReference.port,
        path := NormalizePath relativeReference.path,
        hasQuery := relativeReference.hasQuery, query := relativeReference.query }
    else
      let pathAndQuery : List Str × Bool × Str :=
        if relativeReference.path = [] then
          (base.path,
           if relativeReference.query ≠ [] then
             (relativeReference.hasQuery, relativeReference.query)
           else (base.hasQuery, base.query))
        else if IsPathAbsolute relativeReference.path then
          (NormalizePath relativeReference.path,
           relativeReference.hasQuery, relativeReference.query)
        else
          (NormalizePath
             ((if 1 < base.path.length then base.path.dropLast else base.path)
               ++ relativeReference.path),
           relativeReference.hasQuery, relativeReference.query)
      { scheme := base.scheme,
        host := base.host, userInfo := base.userInfo,
        hasPort := base.hasPort, port := base.port,
        path := pathAndQuery.1,
        hasQuery := pathAndQuery.2.1, query := pathAndQuery.2.2 }
  { target with hasFragment := relativeReference.hasFragment,
                fragment := relativeReference.fragment }

/-- Decimal rendering of a natural number, as `std::ostringstream`
`operator<<` renders the port in `GenerateString`. -/
def natToChars (n : Nat) : Str :=
  if _h : n < 10 then [Char.ofNat (n + '0'.toNat)]
  else natToChars (n / 10) ++ [Char.ofNat (n % 10 + '0'.toNat)]
decreasing_by
  exact Nat.div_lt_self (Nat.lt_of_lt_of_le (by norm_num) (Nat.le_of_not_lt _h)) (by norm_num)

/-- `Uri::GenerateString` (Uri.cpp:1422-1467): scheme with `:`, authority
with `//` (user info, host — IPv6 hosts re-validated, lowercased and
bracketed, reg-names percent-encoded — and port), the path (with the
absolute-empty special case), then query and fragment. -/
def GenerateString (u : Uri) : Str :=
  (if u.scheme ≠ [] then u.scheme ++ [':'] else [])
  ++ (if HasAuthority u then
        ['/', '/']
        ++ (if u.userInfo ≠ [] then
              EncodeElement u.userInfo USER_INFO_NOT_PCT_ENCODED ++ ['@']
            else [])
        ++ (if u.host ≠ [] then
              if ValidateIpv6Address u.host then
                ['['] ++ u.host.map toLowerChar ++ [']']
              else EncodeElement u.host REG_NAME_NOT_PCT_ENCODED
            else [])
        ++ (if u.hasPort then [':'] ++ natToChars u.port else [])
      else [])
  ++ (if IsPathAbsolute u.path && u.path.length == 1 then ['/'] else [])
  ++ List.intercalate ['/']
       (u.path.map (fun segment => EncodeElement segment PCHAR_NOT_PCT_ENCODED))
  ++ (if u.hasQuery then
        ['?'] ++ EncodeElement u.query QUERY_NOT_PCT_ENCODED_WITHOUT_PLUS
      else [])
  ++ (if u.hasFragment then
        ['#'] ++ EncodeElement u.fragment QUERY_OR_FRAGMENT_NOT_PCT_ENCODED
      else [])

/-- A path segment sequence containing no `.` or `..` segments, as
produced by the rebuilding loop of `NormalizePath`. -/
def NoDotSeg (l : List Str) : Prop :=
  ∀ s ∈ l, s ≠ ['.'] ∧ s ≠ ['.', '.']

/-- A path segment sequence in which an empty segment is never directly
preceded by another empty segment. -/
def NoAdjacentEmpty (l : List Str) : Prop :=
  l.Chain' (fun a b => b = [] → a ≠ [])

/-!
## Theorems
-/

/-- C1: the round-trip property fails on the code, in both of its parts.
(1) The relative reference `"?a%3Ab"` parses successfully (query
`"a:b"`); `GenerateString` of the parsed Uri is `"?a:b"`, because `:` is
in the query character set and is emitted literally; and
`ParseFromString` of that generated string fails outright, because the
text `"?a"` before the first `:` is taken as a scheme candidate and
rejected.  (2) `"//[A::1]"` parses with host `"A::1"` stored verbatim;
`GenerateString` lowercases the IPv6 text to `"//[a::1]/"`, which
reparses to host `"a::1"`, and `operator==` compares hosts byte-wise, so
the reparsed Uri is not equal to the original. -/
theorem roundtrip_generate_reparse_fails :
    (ParseFromString (str "?a%3Ab") = some { hasQuery := true, query := str "a:b" }
      ∧ GenerateString { hasQuery := true, query := str "a:b" } = str "?a:b"
      ∧ ParseFromString (str "?a:b") = none)
    ∧ (ParseFromString (str "//[A::1]") = some { host := str "A::1", path := [[]] }
      ∧ GenerateString { host := str "A::1", path := [[]] } = str "//[a::1]/"
      ∧ ParseFromString (str "//[a::1]/") = some { host := str "a::1", path := [[]] }
      ∧ uriEq { host := str "A::1", path := [[]] } { host := str "a::1", path := [[]] } =
          false) := by
  refine ⟨⟨by decide, by decide, by decide⟩, by decide, by decide, by decide, by decide⟩

/-- C5: the `..` step of `NormalizePath` removes the last emitted segment
exactly when the emitted path so far is non-empty and
`CanNavigatePathUpOneLevel` holds of it (not absolute, or more than one
segment); the root sentinel (the path being exactly `[""]`) is never
popped; and the two examples: `["a","b","..","c"]` normalizes to
`["a","c"]` and `/a/b/../../../g` (segments
`["","a","b","..","..","..","g"]`) collapses to `/g` (`["","g"]`). -/
theorem normalize_dotdot_step_and_examples :
    (∀ (path : List Str) (atDirectoryLevel : Bool),
      normStep (path, atDirectoryLevel) (str "..") =
        (if path ≠ [] ∧ CanNavigatePathUpOneLevel path = true then path.dropLast
         else path, true))
    ∧ (∀ atDirectoryLevel : Bool,
        normStep ([[]], atDirectoryLevel) (str "..") = ([[]], true))
    ∧ NormalizePath [str "a", str "b", str "..", str "c"] = [str "a", str "c"]
    ∧ NormalizePath [str "", str "a", str "b", str "..", str "..", str "..", str "g"] =
        [str "", str "g"] := by
  refine ⟨?_, fun _ => rfl, by decide, by decide⟩
  intro path atDirectoryLevel
  have h1 : (str ".." == ['.']) = false := by decide
  have h2 : (str ".." == ['.', '.']) = true := by decide
  simp only [normStep, h1, h2, Bool.false_eq_true, if_false, if_true]
  by_cases hp : path = []
  · simp [hp]
  · by_cases hc : CanNavigatePathUpOneLevel path = true
    · simp [hp, hc, List.isEmpty_iff]
    · simp [hp, hc, List.isEmpty_iff, Bool.eq_false_iff.mpr hc]

/-- C8: `operator==` ignores stale stored values behind cleared presence
flags: two Uris agreeing on scheme, user info, host and path, with both
port flags, both query flags and both fragment flags false, compare equal
regardless of the stored port, query and fragment values. -/
theorem uriEq_ignores_stale_values (a b : Uri)
    (hs : a.scheme = b.scheme) (hu : a.userInfo = b.userInfo)
    (hh : a.host = b.host) (hp : a.path = b.path)
    (hap : a.hasPort = false) (hbp : b.hasPort = false)
    (haq : a.hasQuery = false) (hbq : b.hasQuery = false)
    (haf : a.hasFragment = false) (hbf : b.hasFragment = false) :
    uriEq a b = true := by
  simp [uriEq, hs, hu, hh, hp, hap, hbp, haq, hbq, haf, hbf]

/-- Witness for C8: a Uri that went through `SetPort 99` then `ClearPort`
(leaving the stale stored port 99) and carries stale query/fragment text
compares equal to the default-constructed Uri. -/
theorem uriEq_ignores_stale_values_witness :
    uriEq (ClearPort (SetPort { query := str "stale", fragment := str "old" } 99))
      ({ } : Uri) = true :=
  uriEq_ignores_stale_values _ _ rfl rfl rfl rfl rfl rfl rfl rfl rfl rfl

/-- C2 counterexample: `"//u@"` parses successfully, with a non-empty
user info (so `HasAuthority` holds) but an empty host, and the path stays
`[]` rather than becoming the absolute-empty sentinel `[""]` — the
default-path rule tests only the host, not the full `HasAuthority`
predicate. -/
theorem parse_userinfo_only_leaves_empty_path :
    ParseFromString (str "//u@") = some { userInfo := str "u" }
    ∧ HasAuthority { userInfo := str "u" } = true
    ∧ ({ userInfo := str "u" } : Uri).path = [] := by
  refine ⟨by decide, by decide, by decide⟩

/-- The host and path fields after the default-path rule: if the result
has a non-empty host then its path is non-empty. -/
theorem setDefaultPath_path_ne_nil (u : Uri)
    (h : (SetDefaultPathIfAuthorityPresentAndPathEmpty u).host ≠ []) :
    (SetDefaultPathIfAuthorityPresentAndPathEmpty u).path ≠ [] := by
  unfold SetDefaultPathIfAuthorityPresentAndPathEmpty at h ⊢
  by_cases hcond : u.host ≠ [] ∧ u.path = []
  · simp [hcond]
  · simp only [hcond, if_false] at h ⊢
    intro hpath
    exact hcond ⟨h, hpath⟩

/-- C2 (amended): the default-path rule applies exactly when the *host*
is non-empty (not the weaker `HasAuthority`): an otherwise-empty path
becomes the sentinel `[""]`, nothing else changes, and consequently every
successful parse with a non-empty host yields a non-empty path. -/
theorem default_path_requires_nonempty_host :
    (∀ u : Uri, u.host ≠ [] → u.path = [] →
      SetDefaultPathIfAuthorityPresentAndPathEmpty u = { u with path := [[]] })
    ∧ (∀ u : Uri, u.host = [] ∨ u.path ≠ [] →
      SetDefaultPathIfAuthorityPresentAndPathEmpty u = u)
    ∧ (∀ (s : Str) (u : Uri), ParseFromString s = some u → u.host ≠ [] →
      u.path ≠ []) := by
  refine ⟨?_, ?_, ?_⟩
  · intro u hh hp
    simp [SetDefaultPathIfAuthorityPresentAndPathEmpty, hh, hp]
  · intro u h
    have : ¬(u.host ≠ [] ∧ u.path = []) := by
      rcases h with h | h
      · intro hc; exact hc.1 h
      · intro hc; exact h hc.2
    simp [SetDefaultPathIfAuthorityPresentAndPathEmpty, this]
  · intro s u hparse hhost
    unfold ParseFromString at hparse
    split at hparse
    · exact Option.noConfusion hparse
    · dsimp only at hparse
      split at hparse
      · exact Option.noConfusion hparse
      · split at hparse
        · exact Option.noConfusion hparse
        · split at hparse
          · exact Option.noConfusion hparse
          · split at hparse
            · exact Option.noConfusion hparse
            · rw [Option.some_inj] at hparse
              subst hparse
              exact setDefaultPath_path_ne_nil _ hhost

/-- Witness for C2 (amended): parsing `"//h"` yields host `"h"` and the
sentinel path `[""]`, which is non-empty. -/
theorem default_path_requires_nonempty_host_witness :
    ParseFromString (str "//h") = some { host := str "h", path := [[]] }
    ∧ ({ host := str "h", path := [[]] } : Uri).path ≠ [] :=
  ⟨by decide,
   default_path_requires_nonempty_host.2.2 (str "//h") _ (by decide) (by decide)⟩

/-- C4: resolving a reference with no scheme, empty host and empty path
keeps the base's path unchanged, takes the reference's query exactly when
the reference's query string is non-empty (otherwise the base's query,
flag and value), copies scheme and authority from the base, and always
takes the fragment (flag and value) from the reference. -/
theorem resolve_empty_path_reference (base relativeReference : Uri)
    (hs : relativeReference.scheme = [])
    (hh : relativeReference.host = [])
    (hp : relativeReference.path = []) :
    Resolve base relativeReference =
      { scheme := base.scheme, userInfo := base.userInfo, host := base.host,
        hasPort := base.hasPort, port := base.port,
        path := base.path,
        hasQuery := if relativeReference.query ≠ [] then relativeReference.hasQuery
                    else base.hasQuery,
        query := if relativeReference.query ≠ [] then relativeReference.query
                 else base.query,
        hasFragment := relativeReference.hasFragment,
        fragment := relativeReference.fragment } := by
  by_cases hq : relativeReference.query = [] <;>
    simp [Resolve, hs, hh, hp, hq]

/-- Witness for C4, the spec's own example: base `http://a/b/c/d;p?q` with
reference `"?y"` resolves to `http://a/b/c/d;p?y`. -/
theorem resolve_empty_path_reference_witness :
    Resolve
      { scheme := str "http", host := str "a",
        path := [[], str "b", str "c", str "d;p"], hasQuery := true, query := str "q" }
      { hasQuery := true, query := str "y" } =
      { scheme := str "http", host := str "a",
        path := [[], str "b", str "c", str "d;p"], hasQuery := true, query := str "y" } := by
  rw [resolve_empty_path_reference _ _ rfl rfl rfl]
  decide

/-- The percent decoder inverts `MakeHexDigit` on nibble values. -/
theorem hexDigitValue_makeHexDigit (v : Nat) (h : v < 16) :
    hexDigitValue (MakeHexDigit v) = some v := by
  interval_cases v <;> decide

/-- Decoding the encoding of a byte string, with the accumulator
generalized. -/
theorem decodeElementGo_encode (S : Char → Bool) (hpercent : S '%' = false) :
    ∀ (s acc : Str), (∀ c ∈ s, c.toNat < 256) →
      decodeElementGo S (EncodeElement s S) DecState.normal acc = some (acc ++ s) := by
  intro s
  induction s with
  | nil => intro acc _; simp [EncodeElement, decodeElementGo]
  | cons c t ih =>
    intro acc hlt
    have hc : c.toNat < 256 := hlt c (by simp)
    have ht : ∀ x ∈ t, x.toNat < 256 := fun x hx => hlt x (by simp [hx])
    by_cases hS : S c = true
    · have hcp : c ≠ '%' := by
        intro h
        rw [h, hpercent] at hS
        exact Bool.false_ne_true hS
      have hb : (c == '%') = false := beq_eq_false_iff_ne.mpr hcp
      simp only [EncodeElement, encodeChar, hS, if_true, List.cons_append,
        List.nil_append, decodeElementGo, hb, Bool.false_eq_true, if_false]
      rw [ih (acc ++ [c]) ht]
      simp
    · have hS' : S c = false := Bool.eq_false_iff.mpr hS
      have hdiv : c.toNat / 16 < 16 := by omega
      have hmod : c.toNat % 16 < 16 := Nat.mod_lt _ (by norm_num)
      simp only [EncodeElement, encodeChar, hS', Bool.false_eq_true, if_false,
        List.cons_append, List.nil_append, decodeElementGo, beq_self_eq_true,
        if_true, hexDigitValue_makeHexDigit _ hdiv, hexDigitValue_makeHexDigit _ hmod]
      rw [Nat.div_add_mod c.toNat 16, Char.ofNat_toNat]
      rw [ih (acc ++ [c]) ht]
      simp

/-- C9: for every byte string and every percent-free allowed character
set, `DecodeElement` inverts `EncodeElement`; a character outside the set
is encoded as `%` followed by the high-nibble and then the low-nibble hex
digit; `MakeHexDigit` only produces `0`-`9` and uppercase `A`-`F`; and
none of the library's character sets contains `%`. -/
theorem encode_decode_roundtrip :
    (∀ (s : Str) (S : Char → Bool), S '%' = false → (∀ c ∈ s, c.toNat < 256) →
      DecodeElement (EncodeElement s S) S = some s)
    ∧ (∀ (S : Char → Bool) (c : Char), S c = false →
      encodeChar S c = ['%', MakeHexDigit (c.toNat / 16), MakeHexDigit (c.toNat % 16)])
    ∧ (∀ v : Nat, v < 16 →
      ('0' ≤ MakeHexDigit v ∧ MakeHexDigit v ≤ '9') ∨
      ('A' ≤ MakeHexDigit v ∧ MakeHexDigit v ≤ 'F'))
    ∧ (USER_INFO_NOT_PCT_ENCODED '%' = false ∧ REG_NAME_NOT_PCT_ENCODED '%' = false ∧
       PCHAR_NOT_PCT_ENCODED '%' = false ∧ QUERY_OR_FRAGMENT_NOT_PCT_ENCODED '%' = false ∧
       QUERY_NOT_PCT_ENCODED_WITHOUT_PLUS '%' = false) := by
  refine ⟨?_, ?_, ?_, by decide⟩
  · intro s S hp hlt
    have h := decodeElementGo_encode S hp s [] hlt
    simpa [DecodeElement] using h
  · intro S c hS
    simp [encodeChar, hS]
  · intro v hv
    interval_cases v <;> decide

/-- Witness for C9: round-tripping `"a b"` (a space must be
percent-encoded) through the `pchar` character set. -/
theorem encode_decode_roundtrip_witness :
    DecodeElement (EncodeElement (str "a b") PCHAR_NOT_PCT_ENCODED)
      PCHAR_NOT_PCT_ENCODED = some (str "a b") :=
  encode_decode_roundtrip.1 (str "a b") PCHAR_NOT_PCT_ENCODED (by decide) (by decide)

/-- C3 counterexample: the port text `"1x"` is non-digit text, yet the
authority parse of `"h:1x"` succeeds with port 1, because `std::stoi`
parses the digit prefix and ignores trailing characters. -/
theorem authority_accepts_nondigit_port_text :
    ParseAuthority (str "h:1x") =
      some { userInfo := [], host := str "h", hasPort := true, port := 1 } := by
  decide

/-- `findIdxOf` finds nothing when no character satisfies the
predicate. -/
theorem findIdxOf_eq_none (p : Char → Bool) (l : Str) (h : ∀ c ∈ l, p c = false) :
    findIdxOf p l = none := by
  induction l with
  | nil => rfl
  | cons c t ih =>
    have hc := h c (by simp)
    simp [findIdxOf, hc, ih (fun x hx => h x (by simp [hx]))]

/-- In the `PORT` state, the host/port scanner accumulates every
remaining character into the port text. -/
theorem authLoop_portState (t : Str) :
    ∀ s : AuthScan, s.state = HostParsingState.portState →
      authLoop t s = some { s with portString := s.portString ++ t } := by
  induction t with
  | nil => intro s _; simp [authLoop]
  | cons c t ih =>
    intro s hs
    obtain ⟨st, host, port, reg⟩ := s
    simp only at hs
    subst hs
    have hstep : authStep c
        { state := HostParsingState.portState, host := host,
          portString := port, hostIsRegName := reg } =
        some { state := HostParsingState.portState, host := host,
               portString := port ++ [c], hostIsRegName := reg } := rfl
    simp only [authLoop, hstep]
    rw [ih _ rfl]
    simp

/-- C3 (amended): for a host `h` followed by `:` and non-empty port text
(with no `@`), the authority parse succeeds exactly when the port text
has a parseable integer per `std::stoi` semantics — optional leading
whitespace and sign, then at least one decimal digit, trailing
characters ignored — whose value is between 0 and 65535; the accepted
port is that prefix value. -/
theorem port_text_stoi_characterization (t : Str) (hne : t ≠ []) (hat : '@' ∉ t) :
    ParseAuthority ('h' :: ':' :: t) =
      match stoiModel t with
      | none => none
      | some v =>
        if v < 0 ∨ 65535 < v then none
        else some { userInfo := [], host := ['h'], hasPort := true, port := v.toNat } := by
  have hfind : findIdxOf (· == '@') ('h' :: ':' :: t) = none := by
    apply findIdxOf_eq_none
    intro c hc
    simp only [List.mem_cons] at hc
    rcases hc with rfl | rfl | hc
    · rfl
    · rfl
    · exact beq_eq_false_iff_ne.mpr (fun h => hat (h ▸ hc))
  have h2 : authLoop ('h' :: ':' :: t)
      { state := HostParsingState.firstCharacter, host := [],
        portString := [], hostIsRegName := false } =
      authLoop t
        { state := HostParsingState.portState, host := ['h'],
          portString := [], hostIsRegName := true } := rfl
  unfold ParseAuthority
  rw [hfind]
  dsimp only
  rw [h2, authLoop_portState t _ rfl]
  dsimp only
  simp only [List.nil_append, hne, if_false]
  cases hstoi : stoiModel t with
  | none => simp
  | some v =>
    by_cases hv : v < 0 ∨ 65535 < v
    · simp [hv]
    · simp [hv]
      decide

/-- Witness for C3 (amended): `"65535"` is accepted with port 65535,
while `"65536"`, `"-1"` and `"x"` all fail the authority parse. -/
theorem port_text_stoi_characterization_witness :
    ParseAuthority ('h' :: ':' :: str "65535") =
      some { userInfo := [], host := ['h'], hasPort := true, port := 65535 }
    ∧ ParseAuthority ('h' :: ':' :: str "65536") = none
    ∧ ParseAuthority ('h' :: ':' :: str "-1") = none
    ∧ ParseAuthority ('h' :: ':' :: str "x") = none := by
  refine ⟨?_, ?_, ?_, ?_⟩
  · rw [port_text_stoi_characterization (str "65535") (by decide) (by decide)]; decide
  · rw [port_text_stoi_characterization (str "65536") (by decide) (by decide)]; decide
  · rw [port_text_stoi_characterization (str "-1") (by decide) (by decide)]; decide
  · rw [port_text_stoi_characterization (str "x") (by decide) (by decide)]; decide

/-- C6: the IPv6 validator accepts a bracket-stripped address iff the
scan completes and the hex-group count — counting a trailing open group,
and an embedded trailing IPv4 literal (which must pass the IPv4
validator) as exactly 2 groups — is at most 7 when a `::` compression was
seen and exactly 8 otherwise, and the address does not end in a lone
trailing colon; in particular `"1:2:3:4:5:6:7:8"` and `"::1"` are valid
while `"1:2:3:4:5:6:7:8:9"` and `"1::2::3"` are not. -/
theorem ipv6_acceptance_characterization :
    (∀ address : Str,
      ValidateIpv6Address address = true ↔
      ∃ s : V6Scan, v6Loop address v6Start = some s ∧
        (s.ipv4AddressEncountered = true →
          ValidateIpv4Address (address.drop s.potentialIpv4AddressStart) = true) ∧
        ¬(s.position = address.length ∧
          (s.state = V6State.colonButNoGroupsYet ∨ s.state = V6State.colonAfterGroup)) ∧
        ((s.doubleColonEncountered = true →
          (if s.state = V6State.inGroupNotIpv4 ∨ s.state = V6State.inGroupCouldBeIpv4
            then s.numGroups + 1 else s.numGroups)
            + (if s.ipv4AddressEncountered = true then 2 else 0) ≤ 7) ∧
         (s.doubleColonEncountered = false →
          (if s.state = V6State.inGroupNotIpv4 ∨ s.state = V6State.inGroupCouldBeIpv4
            then s.numGroups + 1 else s.numGroups)
            + (if s.ipv4AddressEncountered = true then 2 else 0) = 8)))
    ∧ ValidateIpv6Address (str "1:2:3:4:5:6:7:8") = true
    ∧ ValidateIpv6Address (str "1:2:3:4:5:6:7:8:9") = false
    ∧ ValidateIpv6Address (str "::1") = true
    ∧ ValidateIpv6Address (str "1::2::3") = false := by
  refine ⟨?_, by decide, by decide, by decide, by decide⟩
  intro address
  unfold ValidateIpv6Address
  cases hscan : v6Loop address v6Start with
  | none => simp
  | some s =>
    simp only [Option.some.injEq, exists_eq_left']
    by_cases hni : s.state = V6State.inGroupNotIpv4 ∨ s.state = V6State.inGroupCouldBeIpv4 <;>
    by_cases hpos : s.position = address.length <;>
    by_cases htr : s.state = V6State.colonButNoGroupsYet ∨ s.state = V6State.colonAfterGroup <;>
    cases hip : s.ipv4AddressEncountered <;>
    by_cases hv4 : ValidateIpv4Address (address.drop s.potentialIpv4AddressStart) = true <;>
    cases hdc : s.doubleColonEncountered <;>
    simp [hni, hpos, htr, hip, hv4, hdc]

/-- `normStep` on a `.` segment: only the directory-level flag is set. -/
theorem normStep_dot (p : List Str) (f : Bool) :
    normStep (p, f) ['.'] = (p, true) := rfl

/-- `normStep` on a `..` segment, as written in the source. -/
theorem normStep_dotdot (p : List Str) (f : Bool) :
    normStep (p, f) ['.', '.'] =
      (if !p.isEmpty then (if CanNavigatePathUpOneLevel p then p.dropLast else p)
       else p, true) := rfl

/-- `normStep` on an ordinary (non-dot) segment. -/
theorem normStep_seg (p : List Str) (f : Bool) (s : Str)
    (h1 : s ≠ ['.']) (h2 : s ≠ ['.', '.']) :
    normStep (p, f) s =
      ((if !f || !s.isEmpty then p ++ [s] else p), s.isEmpty) := by
  simp only [normStep, beq_eq_false_iff_ne.mpr h1, beq_eq_false_iff_ne.mpr h2,
    Bool.false_eq_true, if_false]

/-- Running the rebuild loop over segments that contain no dot segments
and no adjacent empty segments appends them unchanged; the final
directory-level flag records whether the result ends in an empty
segment. -/
theorem foldl_normStep_of_clean (l : List Str) :
    ∀ (acc : List Str) (flag : Bool),
      NoDotSeg l → NoAdjacentEmpty (acc ++ l) →
      (flag = true ↔ acc.getLast? = some []) →
      List.foldl normStep (acc, flag) l =
        (acc ++ l, decide ((acc ++ l).getLast? = some [])) := by
  induction l with
  | nil =>
    intro acc flag _ _ hiff
    have hflag : flag = decide (acc.getLast? = some []) := by
      cases hf : flag
      · rw [hf] at hiff
        simp at hiff
        simp [hiff]
      · rw [hf] at hiff
        simp at hiff
        simp [hiff]
    rw [List.foldl_nil, List.append_nil, hflag]
  | cons s t ih =>
    intro acc flag hdot hchain hiff
    have hs : s ≠ ['.'] ∧ s ≠ ['.', '.'] := hdot s (by simp)
    have hdt : NoDotSeg t := fun x hx => hdot x (by simp [hx])
    rw [List.foldl_cons, normStep_seg acc flag s hs.1 hs.2]
    by_cases hse : s = []
    · subst hse
      have hflag : flag = false := by
        by_contra hne
        have hft : flag = true := by
          cases hf : flag
          · exact absurd hf hne
          · rfl
        have hlast : acc.getLast? = some [] := hiff.mp hft
        have hbound := (List.chain'_append.mp hchain).2.2
        exact (hbound [] (Option.mem_def.mpr hlast) []
          (Option.mem_def.mpr rfl) rfl) rfl
      subst hflag
      simp only [List.isEmpty_nil, Bool.not_true, Bool.not_false, Bool.true_or,
        if_true]
      rw [List.append_cons acc [] t] at hchain ⊢
      exact ih (acc ++ [[]]) true hdt hchain (by simp [List.getLast?_concat])
    · have hsne : s.isEmpty = false := by
        cases s
        · exact absurd rfl hse
        · rfl
      simp only [hsne, Bool.not_false, Bool.or_true, if_true]
      rw [List.append_cons acc s t] at hchain ⊢
      exact ih (acc ++ [s]) false hdt hchain
        (by simp [List.getLast?_concat, hse])

/-- The rebuild loop only ever produces paths with no dot segments and no
adjacent empty segments; moreover a cleared directory-level flag means
the path built so far does not end in an empty segment. -/
theorem foldl_normStep_clean (l : List Str) :
    ∀ (acc : List Str) (flag : Bool),
      NoDotSeg acc → NoAdjacentEmpty acc →
      (flag = false → acc.getLast? ≠ some []) →
      NoDotSeg (List.foldl normStep (acc, flag) l).1 ∧
      NoAdjacentEmpty (List.foldl normStep (acc, flag) l).1 ∧
      ((List.foldl normStep (acc, flag) l).2 = false →
        (List.foldl normStep (acc, flag) l).1.getLast? ≠ some []) := by
  induction l with
  | nil =>
    intro acc flag hdot hchain hflag
    exact ⟨hdot, hchain, hflag⟩
  | cons s t ih =>
    intro acc flag hdot hchain hflag
    rw [List.foldl_cons]
    by_cases hs1 : s = ['.']
    · subst hs1
      rw [normStep_dot]
      exact ih acc true hdot hchain (by simp)
    · by_cases hs2 : s = ['.', '.']
      · subst hs2
        rw [normStep_dotdot]
        have hdrop : NoDotSeg acc.dropLast :=
          fun x hx => hdot x ((List.dropLast_prefix acc).subset hx)
        have hcdrop : NoAdjacentEmpty acc.dropLast :=
          hchain.prefix (List.dropLast_prefix acc)
        by_cases he : acc.isEmpty = true
        · simp only [he, Bool.not_true, Bool.false_eq_true, if_false]
          exact ih acc true hdot hchain (by simp)
        · have he' : acc.isEmpty = false := by
            cases hh : acc.isEmpty
            · rfl
            · exact absurd hh he
          simp only [he', Bool.not_false, if_true]
          by_cases hnav : CanNavigatePathUpOneLevel acc = true
          · simp only [hnav, if_true]
            exact ih acc.dropLast true hdrop hcdrop (by simp)
          · have hnav' : CanNavigatePathUpOneLevel acc = false := by
              cases hh : CanNavigatePathUpOneLevel acc
              · rfl
              · exact absurd hh hnav
            simp only [hnav', Bool.false_eq_true, if_false]
            exact ih acc true hdot hchain (by simp)
      · rw [normStep_seg acc flag s hs1 hs2]
        by_cases hse : s = []
        · subst hse
          simp only [List.isEmpty_nil, Bool.not_true, Bool.or_false]
          cases hf : flag
          · simp only [Bool.not_false, if_true]
            have hne : acc.getLast? ≠ some [] := hflag hf
            have hdot' : NoDotSeg (acc ++ [[]]) := by
              intro x hx
              rcases List.mem_append.mp hx with hx | hx
              · exact hdot x hx
              · simp only [List.mem_singleton] at hx
                subst hx
                exact ⟨by decide, by decide⟩
            have hchain' : NoAdjacentEmpty (acc ++ [[]]) := by
              refine List.chain'_append.mpr ⟨hchain, List.chain'_singleton _, ?_⟩
              intro x hx y hy
              intro _
              intro hxE
              apply hne
              rw [← hxE]
              exact Option.mem_def.mp hx
            exact ih (acc ++ [[]]) true hdot' hchain' (by simp)
          · simp only [Bool.not_true, Bool.false_eq_true, if_false]
            exact ih acc true hdot hchain (by simp)
        · have hsne : s.isEmpty = false := by
            cases s
            · exact absurd rfl hse
            · rfl
          simp only [hsne, Bool.not_false, Bool.or_true, if_true]
          have hdot' : NoDotSeg (acc ++ [s]) := by
            intro x hx
            rcases List.mem_append.mp hx with hx | hx
            · exact hdot x hx
            · simp only [List.mem_singleton] at hx
              subst hx
              exact ⟨hs1, hs2⟩
          have hchain' : NoAdjacentEmpty (acc ++ [s]) := by
            refine List.chain'_append.mpr ⟨hchain, List.chain'_singleton _, ?_⟩
            intro x hx y hy hyE
            exfalso
            apply hse
            have hys : y = s := by
              have := Option.mem_def.mp hy
              simpa using this.symm
            rw [← hys]
            exact hyE
          refine ih (acc ++ [s]) false hdot' hchain' ?_
          intro _
          rw [List.getLast?_concat]
          intro hcontr
          exact hse (by simpa using hcontr)

/-- `NormalizePath` always produces a path with no dot segments and no
adjacent empty segments. -/
theorem normalizePath_clean (p : List Str) :
    NoDotSeg (NormalizePath p) ∧ NoAdjacentEmpty (NormalizePath p) := by
  obtain ⟨h1, h2, h3⟩ := foldl_normStep_clean p [] false
    (by intro x hx; simp at hx) (by simp [NoAdjacentEmpty]) (by simp)
  unfold NormalizePath
  rcases hr : List.foldl normStep ([], false) p with ⟨pp, f⟩
  rw [hr] at h1 h2 h3
  simp only at h1 h2 h3
  by_cases hcond : (f && (!pp.isEmpty && !(pp.getLastD []).isEmpty)) = true
  · simp only [hcond, if_true]
    have hlastne : pp.getLastD [] ≠ [] := by
      intro hcontr
      rw [hcontr] at hcond
      simp at hcond
    constructor
    · intro x hx
      rcases List.mem_append.mp hx with hx | hx
      · exact h1 x hx
      · simp only [List.mem_singleton] at hx
        subst hx
        exact ⟨by decide, by decide⟩
    · refine List.chain'_append.mpr ⟨h2, List.chain'_singleton _, ?_⟩
      intro x hx y hy
      intro _
      intro hxE
      apply hlastne
      have hsome := Option.mem_def.mp hx
      rw [List.getLastD_eq_getLast?, hsome, hxE]
      rfl
  · have hcond' : (f && (!pp.isEmpty && !(pp.getLastD []).isEmpty)) = false := by
      cases hh : (f && (!pp.isEmpty && !(pp.getLastD []).isEmpty))
      · rfl
      · exact absurd hh hcond
    simp only [hcond', Bool.false_eq_true, if_false]
    exact ⟨h1, h2⟩

/-- C7: `NormalizePath` is idempotent — normalizing an already-normalized
path is a no-op. -/
theorem normalizePath_idempotent (p : List Str) :
    NormalizePath (NormalizePath p) = NormalizePath p := by
  obtain ⟨h1, h2⟩ := normalizePath_clean p
  generalize hl : NormalizePath p = l at h1 h2 ⊢
  unfold NormalizePath
  rw [foldl_normStep_of_clean l [] false h1 (by simpa using h2) (by simp)]
  simp only [List.nil_append]
  by_cases hlast : l.getLast? = some []
  · simp [hlast, List.getLastD_eq_getLast?]
  · simp [hlast]

/-- Dropping the last element of a list with more than one element keeps
its head. -/
theorem head?_dropLast_of_one_lt {α : Type} (l : List α) (h : 1 < l.length) :
    l.dropLast.head? = l.head? := by
  match l with
  | [] => simp at h
  | [a] => simp at h
  | a :: b :: t => simp

/-- `IsPathAbsolute` via the optional head segment. -/
theorem isPathAbsolute_iff_head (l : List Str) :
    IsPathAbsolute l = true ↔ l.head? = some [] := by
  cases l <;> simp [IsPathAbsolute]

/-- Once the path being rebuilt starts with the empty sentinel segment,
every further step of the rebuild loop keeps that sentinel: the `..`
guard never pops it. -/
theorem foldl_normStep_abs (l : List Str) :
    ∀ (acc : List Str) (flag : Bool), acc.head? = some [] →
      (List.foldl normStep (acc, flag) l).1.head? = some [] := by
  induction l with
  | nil => intro acc flag h; exact h
  | cons s t ih =>
    intro acc flag hhead
    have hacc : acc ≠ [] := by
      intro h
      rw [h] at hhead
      simp at hhead
    rw [List.foldl_cons]
    by_cases hs1 : s = ['.']
    · subst hs1
      rw [normStep_dot]
      exact ih acc true hhead
    · by_cases hs2 : s = ['.', '.']
      · subst hs2
        rw [normStep_dotdot]
        have habs : IsPathAbsolute acc = true := (isPathAbsolute_iff_head acc).mpr hhead
        have hne : acc.isEmpty = false := by
          cases acc
          · exact absurd rfl hacc
          · rfl
        simp only [hne, Bool.not_false, if_true]
        by_cases hlen : 1 < acc.length
        · have hnav : CanNavigatePathUpOneLevel acc = true := by
            simp [CanNavigatePathUpOneLevel, habs, hlen]
          simp only [hnav, if_true]
          exact ih acc.dropLast true
            (by rw [head?_dropLast_of_one_lt acc hlen]; exact hhead)
        · have hnav : CanNavigatePathUpOneLevel acc = false := by
            simp [CanNavigatePathUpOneLevel, habs, hlen]
          simp only [hnav, Bool.false_eq_true, if_false]
          exact ih acc true hhead
      · rw [normStep_seg acc flag s hs1 hs2]
        by_cases hpush : (!flag || !s.isEmpty) = true
        · simp only [hpush, if_true]
          exact ih (acc ++ [s]) s.isEmpty
            (by rw [List.head?_append_of_ne_nil acc hacc]; exact hhead)
        · have hpush' : (!flag || !s.isEmpty) = false := by
            cases hh : (!flag || !s.isEmpty)
            · rfl
            · exact absurd hh hpush
          simp only [hpush', Bool.false_eq_true, if_false]
          exact ih acc s.isEmpty hhead

/-- Starting from a path whose head (if any) is a non-empty segment, and
with the directory-level flag set whenever the path is empty, the rebuild
loop never creates a leading empty sentinel segment. -/
theorem foldl_normStep_rel (l : List Str) :
    ∀ (acc : List Str) (flag : Bool),
      (∀ x, acc.head? = some x → x ≠ []) → (acc = [] → flag = true) →
      (∀ x, (List.foldl normStep (acc, flag) l).1.head? = some x → x ≠ []) ∧
      ((List.foldl normStep (acc, flag) l).1 = [] →
        (List.foldl normStep (acc, flag) l).2 = true) := by
  induction l with
  | nil => intro acc flag h1 h2; exact ⟨h1, h2⟩
  | cons s t ih =>
    intro acc flag h1 h2
    rw [List.foldl_cons]
    by_cases hs1 : s = ['.']
    · subst hs1
      rw [normStep_dot]
      exact ih acc true h1 (fun _ => rfl)
    · by_cases hs2 : s = ['.', '.']
      · subst hs2
        rw [normStep_dotdot]
        by_cases hacc : acc = []
        · subst hacc
          simp only [List.isEmpty_nil, Bool.not_true, Bool.false_eq_true, if_false]
          exact ih [] true h1 (fun _ => rfl)
        · have hne : acc.isEmpty = false := by
            cases acc
            · exact absurd rfl hacc
            · rfl
          simp only [hne, Bool.not_false, if_true]
          by_cases hnav : CanNavigatePathUpOneLevel acc = true
          · simp only [hnav, if_true]
            refine ih acc.dropLast true ?_ (fun _ => rfl)
            intro x hx
            have hd : acc.dropLast ≠ [] := by
              intro h
              rw [h] at hx
              simp at hx
            have hlen : 1 < acc.length := by
              have hpos := List.length_pos.mpr hd
              rw [List.length_dropLast] at hpos
              omega
            rw [head?_dropLast_of_one_lt acc hlen] at hx
            exact h1 x hx
          · have hnav' : CanNavigatePathUpOneLevel acc = false := by
              cases hh : CanNavigatePathUpOneLevel acc
              · rfl
              · exact absurd hh hnav
            simp only [hnav', Bool.false_eq_true, if_false]
            exact ih acc true h1 (fun _ => rfl)
      · rw [normStep_seg acc flag s hs1 hs2]
        by_cases hse : s = []
        · subst hse
          simp only [List.isEmpty_nil, Bool.not_true, Bool.or_false]
          cases hf : flag
          · have hacc : acc ≠ [] := by
              intro h
              rw [h2 h] at hf
              exact Bool.noConfusion hf
            simp only [Bool.not_false, if_true]
            refine ih (acc ++ [[]]) true ?_ (fun _ => rfl)
            intro x hx
            rw [List.head?_append_of_ne_nil acc hacc] at hx
            exact h1 x hx
          · simp only [Bool.not_true, Bool.false_eq_true, if_false]
            exact ih acc true h1 (fun _ => rfl)
        · have hsne : s.isEmpty = false := by
            cases s
            · exact absurd rfl hse
            · rfl
          simp only [hsne, Bool.not_false, Bool.or_true, if_true]
          refine ih (acc ++ [s]) false ?_ ?_
          · intro x hx
            by_cases hacc : acc = []
            · subst hacc
              simp only [List.nil_append, List.head?_cons, Option.some.injEq] at hx
              exact hx ▸ hse
            · rw [List.head?_append_of_ne_nil acc hacc] at hx
              exact h1 x hx
          · intro h
            exact absurd h (by simp)

/-- The final directory-marker append of `NormalizePath` keeps a
non-sentinel head: the result is still not absolute. -/
theorem isPathAbsolute_final_false (pp : List Str) (f : Bool)
    (hhead : ∀ x, pp.head? = some x → x ≠ []) :
    IsPathAbsolute
      (if f && (!pp.isEmpty && !(pp.getLastD []).isEmpty) then pp ++ [[]] else pp) =
      false := by
  by_cases hcond : (f && (!pp.isEmpty && !(pp.getLastD []).isEmpty)) = true
  · simp only [hcond, if_true]
    have hne : pp ≠ [] := by
      intro h
      rw [h] at hcond
      simp at hcond
    cases pp with
    | nil => exact absurd rfl hne
    | cons a r =>
      have ha : a ≠ [] := hhead a rfl
      simpa [IsPathAbsolute] using ha
  · have hcond' : (f && (!pp.isEmpty && !(pp.getLastD []).isEmpty)) = false := by
      cases hh : (f && (!pp.isEmpty && !(pp.getLastD []).isEmpty))
      · rfl
      · exact absurd hh hcond
    simp only [hcond', Bool.false_eq_true, if_false]
    cases pp with
    | nil => rfl
    | cons a r =>
      have ha : a ≠ [] := hhead a rfl
      simpa [IsPathAbsolute] using ha

/-- The final directory-marker append of `NormalizePath` keeps the
leading empty sentinel: the result is still absolute. -/
theorem isPathAbsolute_final_true (pp : List Str) (f : Bool)
    (hhead : pp.head? = some []) :
    IsPathAbsolute
      (if f && (!pp.isEmpty && !(pp.getLastD []).isEmpty) then pp ++ [[]] else pp) =
      true := by
  have hne : pp ≠ [] := by
    intro h
    rw [h] at hhead
    simp at hhead
  by_cases hcond : (f && (!pp.isEmpty && !(pp.getLastD []).isEmpty)) = true
  · simp only [hcond, if_true]
    rw [isPathAbsolute_iff_head, List.head?_append_of_ne_nil pp hne]
    exact hhead
  · have hcond' : (f && (!pp.isEmpty && !(pp.getLastD []).isEmpty)) = false := by
      cases hh : (f && (!pp.isEmpty && !(pp.getLastD []).isEmpty))
      · rfl
      · exact absurd hh hcond
    simp only [hcond', Bool.false_eq_true, if_false]
    exact (isPathAbsolute_iff_head pp).mpr hhead

/-- C10: `NormalizePath` preserves path absoluteness in both directions —
the leading empty sentinel of an absolute path is never removed, and
normalizing a relative path never produces an absolute one. -/
theorem normalizePath_preserves_absoluteness (p : List Str) :
    IsPathAbsolute (NormalizePath p) = IsPathAbsolute p := by
  cases p with
  | nil => rfl
  | cons s t =>
    by_cases hs : s = []
    · subst hs
      have hstep : normStep ([], false) ([] : Str) = ([[]], true) := rfl
      have habs := foldl_normStep_abs t [[]] true rfl
      unfold NormalizePath
      rw [List.foldl_cons, hstep]
      rcases hr : List.foldl normStep ([[]], true) t with ⟨pp, f⟩
      rw [hr] at habs
      simp only at habs
      rw [show IsPathAbsolute ([] :: t) = true from rfl]
      exact isPathAbsolute_final_true pp f habs
    · have hrhs : IsPathAbsolute (s :: t) = false := beq_eq_false_iff_ne.mpr hs
      rw [hrhs]
      unfold NormalizePath
      rw [List.foldl_cons]
      by_cases hs1 : s = ['.']
      · subst hs1
        rw [normStep_dot]
        obtain ⟨hhead, _⟩ := foldl_normStep_rel t [] true
          (by intro x hx; simp at hx) (fun _ => rfl)
        rcases hr : List.foldl normStep ([], true) t with ⟨pp, f⟩
        rw [hr] at hhead
        simp only at hhead
        exact isPathAbsolute_final_false pp f hhead
      · by_cases hs2 : s = ['.', '.']
        · subst hs2
          rw [normStep_dotdot]
          simp only [List.isEmpty_nil, Bool.not_true, Bool.false_eq_true, if_false]
          obtain ⟨hhead, _⟩ := foldl_normStep_rel t [] true
            (by intro x hx; simp at hx) (fun _ => rfl)
          rcases hr : List.foldl normStep ([], true) t with ⟨pp, f⟩
          rw [hr] at hhead
          simp only at hhead
          exact isPathAbsolute_final_false pp f hhead
        · rw [normStep_seg [] false s hs1 hs2]
          have hsne : s.isEmpty = false := by
            cases s
            · exact absurd rfl hs
            · rfl
          simp only [hsne, Bool.not_false, Bool.or_true, if_true, List.nil_append]
          obtain ⟨hhead, _⟩ := foldl_normStep_rel t [s] false
            (by
              intro x hx
              simp only [List.head?_cons, Option.some.injEq] at hx
              exact hx ▸ hs)
            (fun h => absurd h (by simp))
          rcases hr : List.foldl normStep ([s], false) t with ⟨pp, f⟩
          rw [hr] at hhead
          simp only at hhead
          exact isPathAbsolute_final_false pp f hhead

end UriModel
